import Mathlib

/-!
Verification of the plan-generation pipeline of the `momentum-ai-backend`
repository (`app/services/llm_service.py`, `app/services/plan_service.py`,
`app/routers/planner.py`).

Python strings are embedded as `List Char`; `json.loads` is embedded as an
executable JSON parser; the asynchronous job and the SSE registry are embedded
as pure state-passing functions over an explicit registry state.
-/

/-- Whitespace characters stripped by Python `str.strip()` (ASCII subset:
space, tab, newline, carriage return, vertical tab, form feed). -/
def wsChar (c : Char) : Bool :=
  c == ' ' || c == '\t' || c == '\n' || c == '\r' ||
  c == Char.ofNat 11 || c == Char.ofNat 12

/-- Python `str.strip()`: drop leading and trailing whitespace. -/
def pyStrip (l : List Char) : List Char :=
  ((l.dropWhile wsChar).reverse.dropWhile wsChar).reverse

/-- Python `str.find(c)` restricted to single characters: index of the first
occurrence, `none` standing for Python's `-1`. -/
def pyFind (c : Char) : List Char → Option Nat
  | [] => none
  | x :: xs => if x == c then some 0 else (pyFind c xs).map (· + 1)

/-- Python `str.rfind(c)`: index of the last occurrence, `none` for `-1`. -/
def pyRFind (c : Char) (l : List Char) : Option Nat :=
  (pyFind c l.reverse).map (fun i => l.length - 1 - i)

/-- Python slice `l[s:e]` for nonnegative bounds: empty when `e ≤ s`,
clamped at the end of the list. -/
def pySlice (l : List Char) (s e : Nat) : List Char :=
  (l.drop s).take (e - s)

/-- Skip leading JSON whitespace. -/
def skipWs (l : List Char) : List Char := l.dropWhile wsChar

/-- JSON values as produced by `json.loads`. -/
inductive Json where
  | str (s : List Char)
  | num (n : Int)
  | jbool (b : Bool)
  | null
  | arr (elems : List Json)
  | obj (fields : List (List Char × Json))
deriving Repr

/-- Decoding of a JSON string escape sequence (`\uXXXX` escapes are not
modelled; the pipeline's inputs do not use them). -/
def escPairs : List (Char × Char) :=
  [('n', '\n'), ('t', '\t'), ('r', '\r'), ('b', Char.ofNat 8),
   ('f', Char.ofNat 12), ('"', '"'), ('\\', '\\'), ('/', '/')]

/-- The decoded character of a JSON string escape, when the escape is known. -/
def escChar (c : Char) : Option Char :=
  (escPairs.find? (fun pc => pc.1 == c)).map (fun pc => pc.2)

/-- Body of a JSON string after the opening quote: returns the decoded
characters and the remaining input after the closing quote. -/
def parseStringBody : List Char → List Char → Option (List Char × List Char)
  | [], _ => none
  | '\\' :: e :: rest, acc =>
    match escChar e with
    | some ce => parseStringBody rest (ce :: acc)
    | none => none
  | c :: rest, acc =>
    if c == '"' then some (acc.reverse, rest)
    else parseStringBody rest (c :: acc)

/-- A nonempty run of decimal digits as a natural number. -/
def parseNat (l : List Char) : Option (Nat × List Char) :=
  let ds := l.takeWhile Char.isDigit
  if ds.isEmpty then none
  else some (ds.foldl (fun n c => n * 10 + (c.toNat - 48)) 0, l.dropWhile Char.isDigit)

/-- A JSON number (integers with optional sign; fractions and exponents are
not modelled, the pipeline's inputs do not use them). -/
def parseNumber (l : List Char) : Option (Int × List Char) :=
  match l with
  | '-' :: rest => (parseNat rest).map (fun p => (-(p.1 : Int), p.2))
  | _ => (parseNat l).map (fun p => ((p.1 : Int), p.2))

mutual

/-- Fueled parser for a JSON value; the fuel is an upper bound on recursion
depth, always instantiated large enough for the input at hand. -/
def parseVal : Nat → List Char → Option (Json × List Char)
  | 0, _ => none
  | _ + 1, [] => none
  | fuel + 1, c :: rest =>
    if c == '"' then
      (parseStringBody rest []).map (fun p => (Json.str p.1, p.2))
    else if c == '[' then
      parseElems fuel (skipWs rest)
    else if c == '{' then
      parseFields fuel (skipWs rest)
    else if c == 't' then
      match rest with
      | 'r' :: 'u' :: 'e' :: r => some (Json.jbool true, r)
      | _ => none
    else if c == 'f' then
      match rest with
      | 'a' :: 'l' :: 's' :: 'e' :: r => some (Json.jbool false, r)
      | _ => none
    else if c == 'n' then
      match rest with
      | 'u' :: 'l' :: 'l' :: r => some (Json.null, r)
      | _ => none
    else
      (parseNumber (c :: rest)).map (fun p => (Json.num p.1, p.2))

/-- After an opening `[` (whitespace skipped): either an empty array or a
first element followed by the element tail. -/
def parseElems : Nat → List Char → Option (Json × List Char)
  | 0, _ => none
  | _ + 1, [] => none
  | fuel + 1, c :: rest =>
    if c == ']' then some (Json.arr [], rest)
    else
      match parseVal fuel (c :: rest) with
      | none => none
      | some (v, r) => parseElemsTail fuel [v] (skipWs r)

/-- Remaining elements of an array after at least one element was read. -/
def parseElemsTail : Nat → List Json → List Char → Option (Json × List Char)
  | 0, _, _ => none
  | _ + 1, _, [] => none
  | fuel + 1, acc, c :: rest =>
    if c == ']' then some (Json.arr acc.reverse, rest)
    else if c == ',' then
      match parseVal fuel (skipWs rest) with
      | none => none
      | some (v, r) => parseElemsTail fuel (v :: acc) (skipWs r)
    else none

/-- After an opening `{` (whitespace skipped): either an empty object or a
first field followed by the field tail. -/
def parseFields : Nat → List Char → Option (Json × List Char)
  | 0, _ => none
  | _ + 1, [] => none
  | fuel + 1, c :: rest =>
    if c == '}' then some (Json.obj [], rest)
    else
      match parseOneField fuel (c :: rest) with
      | none => none
      | some (kv, r) => parseFieldsTail fuel [kv] (skipWs r)

/-- Remaining fields of an object after at least one field was read. -/
def parseFieldsTail : Nat → List (List Char × Json) → List Char →
    Option (Json × List Char)
  | 0, _, _ => none
  | _ + 1, _, [] => none
  | fuel + 1, acc, c :: rest =>
    if c == '}' then some (Json.obj acc.reverse, rest)
    else if c == ',' then
      match parseOneField fuel (skipWs rest) with
      | none => none
      | some (kv, r) => parseFieldsTail fuel (kv :: acc) (skipWs r)
    else none

/-- One `"key": value` field of a JSON object. -/
def parseOneField : Nat → List Char → Option ((List Char × Json) × List Char)
  | 0, _ => none
  | fuel + 1, '"' :: rest =>
    match parseStringBody rest [] with
    | none => none
    | some (k, r) =>
      match skipWs r with
      | ':' :: r2 =>
        match parseVal fuel (skipWs r2) with
        | none => none
        | some (v, r3) => some ((k, v), r3)
      | _ => none
  | _ + 1, _ => none

end

/-- Embedding of Python `json.loads`: the whole input must be one JSON value,
possibly surrounded by whitespace; error values are the leading words of the
`json.JSONDecodeError` messages. -/
def jsonLoads (l : List Char) : Except (List Char) Json :=
  match parseVal (4 * l.length + 8) (skipWs l) with
  | none => .error ("Expecting value").toList
  | some (v, rest) =>
    if skipWs rest = [] then .ok v else .error ("Extra data").toList

/-! ## Task schema (`app/schemas/plan.py`) -/

/-- `TaskContent` of `app/schemas/plan.py`. The `task_id` UUID is embedded as
its validated string form (the schema declares `task_id: UUID`; the format
check is enforced by `reqUuidField` below); all other fields are declared
`str` / `bool` in the source. -/
structure TaskContent where
  task_id : List Char
  start_at : List Char
  end_at : List Char
  title : List Char
  action_plan : List Char
  expected_outcome : List Char
  complete : Bool
deriving DecidableEq, Repr

/-- `GoalContent` of `app/schemas/plan.py`. -/
structure GoalContent where
  duration : List Char
  current_situation : List Char
  task : List Char
  attachment_id : Option (List Char)
deriving DecidableEq, Repr

/-- `Plan` of `app/schemas/plan.py`; the two UUIDs are embedded as opaque
numeric identifiers. -/
structure Plan where
  user_id : Nat
  goal_id : Nat
  goal_content : GoalContent
  tasks_content : List TaskContent
deriving DecidableEq, Repr

/-- Dictionary lookup on the fields of a decoded JSON object; like a Python
dict built by `json.loads`, a repeated key keeps its last value. -/
def lookupField (fields : List (List Char × Json)) (k : List Char) : Option Json :=
  fields.foldl (fun acc kv => if kv.1 = k then some kv.2 else acc) none

/-- A required string field of the task schema. The error detail carries the
field name — mirroring pydantic's `ValidationError`, whose message names the
field and the offending input but not any surrounding array index. -/
def reqStrField (fields : List (List Char × Json)) (name : List Char) :
    Except (List Char) (List Char) :=
  match lookupField fields name with
  | none => .error (("Field required: ").toList ++ name)
  | some (Json.str s) => .ok s
  | some _ => .error (("Input should be a valid string: ").toList ++ name)

/-- A hexadecimal digit, as accepted by `int(hex, 16)`. -/
def isHexChar (c : Char) : Bool :=
  c.isDigit || (decide ('a' ≤ c) && decide (c ≤ 'f')) ||
    (decide ('A' ≤ c) && decide (c ≤ 'F'))

/-- The UUID string format demanded by the schema's `task_id: UUID` field:
after removing hyphens (Python's `uuid.UUID` does `replace('-', '')`),
exactly 32 hexadecimal digits must remain. The brace/`urn:uuid:` input forms
and pydantic's positional constraints on the hyphens are not modelled; no
claim's input uses them — every fixture is a canonical 8-4-4-4-12 UUID or a
plainly invalid string, on which Python's `uuid.UUID`, pydantic, and this
predicate agree. -/
def validUuid (s : List Char) : Bool :=
  (s.filter (fun c => c != '-')).length == 32 &&
    (s.filter (fun c => c != '-')).all isHexChar

/-- The required `task_id` field: present, a string, and a valid UUID. The
error detail carries the field name — pydantic's UUID `ValidationError`
names the field and the offending input but not any surrounding array
index. -/
def reqUuidField (fields : List (List Char × Json)) (name : List Char) :
    Except (List Char) (List Char) :=
  match lookupField fields name with
  | none => .error (("Field required: ").toList ++ name)
  | some (Json.str s) =>
    if validUuid s then .ok s
    else .error (("Input should be a valid UUID: ").toList ++ name)
  | some _ => .error (("Input should be a valid UUID: ").toList ++ name)

/-- The optional `complete` field, defaulting to `false`. -/
def optBoolField (fields : List (List Char × Json)) (name : List Char) :
    Except (List Char) Bool :=
  match lookupField fields name with
  | none => .ok false
  | some (Json.jbool b) => .ok b
  | some _ => .error (("Input should be a valid boolean: ").toList ++ name)

/-- `TaskContent(**task_dict)`: pydantic validation of one decoded element.
Fields are checked in declaration order and the first failure is reported
(pydantic aggregates all field failures into one message; either way the
error is a function of the element alone — the element's array index is not
part of it). A non-object element fails like Python's `**` of a non-mapping. -/
def validateTaskContent : Json → Except (List Char) TaskContent
  | Json.obj fields => do
    let tid ← reqUuidField fields ("task_id").toList
    let sa ← reqStrField fields ("start_at").toList
    let ea ← reqStrField fields ("end_at").toList
    let ti ← reqStrField fields ("title").toList
    let ap ← reqStrField fields ("action_plan").toList
    let eo ← reqStrField fields ("expected_outcome").toList
    let co ← optBoolField fields ("complete").toList
    pure ⟨tid, sa, ea, ti, ap, eo, co⟩
  | _ => .error ("argument after ** must be a mapping").toList

/-- The `for i, task_dict in enumerate(tasks_data)` loop of
`plan_service.plan`: elements are validated left to right and the first
failing element's own error propagates. -/
def validateTaskList : List Json → Except (List Char) (List TaskContent)
  | [] => .ok []
  | j :: rest =>
    match validateTaskContent j with
    | .error m => .error m
    | .ok t =>
      match validateTaskList rest with
      | .error m => .error m
      | .ok ts => .ok (t :: ts)

/-- Iterating the decoded value as the task array (a non-array decoded value
would fail the loop like Python's `TypeError`; unreachable in practice since
the extracted substring starts with `[`). -/
def validateTasks : Json → Except (List Char) (List TaskContent)
  | Json.arr elems => validateTaskList elems
  | _ => .error ("tasks data is not an array").toList

/-! ## Response parsing (`app/services/plan_service.py`, lines 40–67) -/

/-- The distinct failure modes of the parsing section of
`plan_service.plan`, before the surrounding `except` clauses re-wrap them:
`noArrayFound` is the `ValueError` raised when `find`/`rfind` miss,
`invalidJson` the `json.JSONDecodeError` detail, and `schemaViolation` the
validation failure of a task element. -/
inductive ParseErr where
  | noArrayFound
  | invalidJson (detail : List Char)
  | schemaViolation (detail : List Char)
deriving DecidableEq, Repr

/-- Lines 40–62 of `plan_service.plan`: strip the raw text, locate the first
`[` and the last `]` (Python's `start_idx == -1 or end_idx == 0` test is the
`none` case of either search), slice, `json.loads`, and validate each
element. -/
def parsePlanText (raw : List Char) : Except ParseErr (List TaskContent) :=
  match pyFind '[' (pyStrip raw), pyRFind ']' (pyStrip raw) with
  | some start_idx, some ridx =>
    match jsonLoads (pySlice (pyStrip raw) start_idx (ridx + 1)) with
    | .error m => .error (.invalidJson m)
    | .ok v =>
      match validateTasks v with
      | .error m => .error (.schemaViolation m)
      | .ok ts => .ok ts
  | _, _ => .error .noArrayFound

/-! ## Sorting by start date -/

/-- Python string comparison: lexicographic on code points. -/
def strLe : List Char → List Char → Bool
  | [], _ => true
  | _ :: _, [] => false
  | a :: as, b :: bs => if a < b then true else if b < a then false else strLe as bs

/-- Ordering of tasks used by `plan.tasks_content.sort(key=lambda t: t.start_at)`. -/
def taskLe (a b : TaskContent) : Prop := strLe a.start_at b.start_at = true

instance : DecidableRel taskLe := fun a b =>
  inferInstanceAs (Decidable (strLe a.start_at b.start_at = true))

/-! ## Plan service (`app/services/plan_service.py`) -/

/-- The exceptions `plan_service.plan` can raise, after its `except` clauses:
the LLM call sits outside the `try` block, so a completion failure propagates
with its own message; a `json.JSONDecodeError` is re-raised as the
`Failed to parse…` `ValueError`; every other failure inside the `try` block
(including the `No JSON array found` `ValueError` and pydantic's
`ValidationError`) is re-raised as the `Error processing plan: …`
`Exception`. -/
inductive PlanError where
  | llmFailure (message : List Char)
  | invalidJson (message : List Char)
  | processing (message : List Char)
deriving DecidableEq, Repr

/-- `str(e)` of the raised exception. -/
def errMessage : PlanError → List Char
  | .llmFailure m => m
  | .invalidJson m => m
  | .processing m => m

/-- `plan_service.plan`: the completion call is an oracle input (`.error` is
an exception raised by `generate_completion`, `.ok` its returned text). On
success the parsed tasks are appended to the plan's existing `tasks_content`
and the whole sequence is sorted by `start_at`; Python's `list.sort` is
stable, so it is embedded as insertion sort with the non-strict key order,
which computes the unique stable result. -/
def planService (p : Plan) (llmResult : Except (List Char) (List Char)) :
    Except PlanError Plan :=
  match llmResult with
  | .error e => .error (.llmFailure e)
  | .ok llm_response =>
    match parsePlanText llm_response with
    | .error .noArrayFound =>
      .error (.processing ("Error processing plan: No JSON array found in LLM response").toList)
    | .error (.invalidJson m) =>
      .error (.invalidJson (("Failed to parse LLM response as JSON: ").toList ++ m))
    | .error (.schemaViolation m) =>
      .error (.processing (("Error processing plan: ").toList ++ m))
    | .ok task_objects =>
      .ok { p with
            tasks_content := List.insertionSort taskLe (p.tasks_content ++ task_objects) }

/-! ## Completion client (`app/services/llm_service.py`) -/

/-- One content block of the remote response: internal reasoning
(`block.type == "thinking"`) or visible text (`block.type == "text"`). -/
inductive ContentBlock where
  | thinking (content : List Char)
  | text (content : List Char)
deriving DecidableEq, Repr

/-- The `text_content` list collected by `generate_completion`: the visible
text blocks in response order (thinking blocks are collected separately and
never used). -/
def visibleTexts : List ContentBlock → List (List Char)
  | [] => []
  | ContentBlock.thinking _ :: rest => visibleTexts rest
  | ContentBlock.text s :: rest => s :: visibleTexts rest

/-- Python `"\n".join`. -/
def joinNewline : List (List Char) → List Char
  | [] => []
  | [s] => s
  | s :: rest => s ++ '\n' :: joinNewline rest

/-- The response-processing tail of `MiniMaxClient.generate_completion`,
given the content blocks of a successful API response: joins the visible
text blocks with a line break; `if not result` (the Python falsiness test,
i.e. the empty string) raises `ValueError("Empty response from LLM")`, which
the surrounding `except Exception` clause re-raises with the
`Failed to generate completion: ` prefix. Upstream API failures are modelled
as the `.error` oracle input of `planService`. -/
def generate_completion (blocks : List ContentBlock) : Except (List Char) (List Char) :=
  let result := joinNewline (visibleTexts blocks)
  if result = [] then
    .error ("Failed to generate completion: Empty response from LLM").toList
  else .ok result

/-! ## Background job and SSE registry (`app/routers/planner.py`) -/

/-- A server-sent event, as broadcast by `_process_plan_in_background`:
`status` and `error` carry their message/data dictionaries, `completed`
carries `model_dump` of the full plan (embedded as the plan itself). -/
inductive Event where
  | status (message : List Char)
  | completed (plan : Plan)
  | error (message : List Char)
deriving DecidableEq, Repr

/-- The first status message. -/
def startingMessage : List Char := ("Starting plan generation with AI...").toList

/-- The post-generation status message; the count interpolated by the source
is `len(updated_plan.tasks_content)`. -/
def generatedMessage (n : Nat) : List Char :=
  ("Generated ").toList ++ (toString n).toList ++ (" tasks").toList

/-- The ordered broadcasts of one run of `_process_plan_in_background`: a
starting status; then, if `generate_plan_tasks` returns, the generated-count
status and the `completed` event; if it raises, the single `error` event
carrying `str(e)` — the `try`/`except` converts every exception into that
event, so the job itself never propagates one. -/
def runJobEvents (p : Plan) (llmResult : Except (List Char) (List Char)) : List Event :=
  Event.status startingMessage ::
    match planService p llmResult with
    | .ok updated_plan =>
      [Event.status (generatedMessage updated_plan.tasks_content.length),
       Event.completed updated_plan]
    | .error e => [Event.error (errMessage e)]

/-- What `task_results[goal_id]` holds after the run: the dumped plan on
success, or the `{"error": str(e)}` dictionary on failure. -/
inductive StoredResult where
  | planDict (p : Plan)
  | errorDict (message : List Char)
deriving DecidableEq, Repr

/-- `task_results[goal_id]` after one run. -/
def runJobStored (p : Plan) (llmResult : Except (List Char) (List Char)) : StoredResult :=
  match planService p llmResult with
  | .ok updated_plan => .planDict updated_plan
  | .error e => .errorDict (errMessage e)

/-- The terminal event of one run (the last broadcast). -/
def terminalEvent (p : Plan) (llmResult : Except (List Char) (List Char)) : Event :=
  match planService p llmResult with
  | .ok updated_plan => Event.completed updated_plan
  | .error e => Event.error (errMessage e)

/-- The module-level mutable state of `app/routers/planner.py`:
`sse_queues` maps a goal id to the list of subscriber queues (queues are
embedded as opaque identifiers) and `task_results` maps a goal id to its
retained terminal result. -/
structure Registry where
  sseQueues : List (Nat × List Nat)
  taskResults : List (Nat × StoredResult)
deriving DecidableEq, Repr

/-- Association-list lookup (`d[k]` / `k in d`). -/
def lookupEntry {α : Type} : List (Nat × α) → Nat → Option α
  | [], _ => none
  | (k2, v) :: rest, k => if k2 = k then some v else lookupEntry rest k

/-- Association-list update (`d[k] = v`): replaces an existing entry. -/
def setEntry {α : Type} : List (Nat × α) → Nat → α → List (Nat × α)
  | [], k, v => [(k, v)]
  | (k2, v2) :: rest, k, v =>
    if k2 = k then (k, v) :: rest else (k2, v2) :: setEntry rest k v

/-- Association-list deletion (`del d[k]`). -/
def removeEntry {α : Type} (l : List (Nat × α)) (k : Nat) : List (Nat × α) :=
  l.filter (fun kv => kv.1 != k)

/-- The dictionary returned by the `POST /plans/generate` handler. -/
structure SubmitResponse where
  success : Bool
  message : List Char
  goal_id : Nat
deriving DecidableEq, Repr

/-- The `generate_plan` handler: unconditionally resets
`sse_queues[plan.goal_id]` to a fresh empty list (there is no membership
check), spawns the background job, and returns the acceptance dictionary. -/
def generate_plan (p : Plan) (st : Registry) : SubmitResponse × Registry :=
  ({ success := true,
     message := ("Plan generation started. Connect to /plans/stream/\x7bgoal_id\x7d for updates.").toList,
     goal_id := p.goal_id },
   { st with sseQueues := setEntry st.sseQueues p.goal_id [] })

/-- How an attach to `GET /plans/stream/{goal_id}` begins. -/
inductive AttachResult where
  | notFound
  | oneShot (e : Event)
  | live
deriving DecidableEq, Repr

/-- The `stream_plan_updates` handler together with the head of its
`event_generator`: a 404 when the goal id is in neither map; otherwise, if a
terminal result is retained, a one-shot stream replaying just that result
(the stored dictionary contains the key `"error"` exactly in the error case —
a dumped plan's keys are fixed — closing immediately after); otherwise a live
subscription whose queue is appended to `sse_queues[goal_id]`. -/
def stream_plan_updates (goal_id : Nat) (st : Registry) : AttachResult :=
  if lookupEntry st.sseQueues goal_id = none ∧ lookupEntry st.taskResults goal_id = none then
    .notFound
  else
    match lookupEntry st.taskResults goal_id with
    | some (.errorDict m) => .oneShot (.error m)
    | some (.planDict plan) => .oneShot (.completed plan)
    | none => .live

/-- The empty registry (process start). -/
def emptyRegistry : Registry := ⟨[], []⟩

/-- Registry state right after a submission on a fresh process. -/
def stateAfterSubmit (p : Plan) : Registry := (generate_plan p emptyRegistry).2

/-- Registry state after the job's terminal event but before the grace-period
cleanup: the queue entry is still present and `task_results[goal_id]` holds
the terminal result. -/
def stateAfterTerminal (p : Plan) (llmResult : Except (List Char) (List Char)) : Registry :=
  let st := stateAfterSubmit p
  { st with taskResults := setEntry st.taskResults p.goal_id (runJobStored p llmResult) }

/-- Registry state after the grace period: the `finally` block sleeps one
time unit and then deletes only `sse_queues[goal_id]`; the
`task_results[goal_id]` entry is not touched by any code path. -/
def stateAfterGrace (p : Plan) (llmResult : Except (List Char) (List Char)) : Registry :=
  let st := stateAfterTerminal p llmResult
  { st with sseQueues := removeEntry st.sseQueues p.goal_id }

/-! ## Auxiliary definitions for the stated properties -/

deriving instance DecidableEq for Except

/-- A terminal event (`completed` xor `error`). -/
def isTerminal : Event → Bool
  | Event.status _ => false
  | Event.completed _ => true
  | Event.error _ => true

/-- A status event. -/
def isStatus : Event → Bool
  | Event.status _ => true
  | _ => false

/-- The tasks whose start date equals `k` (used to state sort stability). -/
def hasStart (k : List Char) (t : TaskContent) : Bool := decide (t.start_at = k)

/-! ## Concrete fixtures (used by counterexamples and witnesses) -/

/-- A goal content payload. -/
def gcPre : GoalContent := ⟨("2 weeks").toList, ("cs").toList, ("learn").toList, none⟩

/-- A pre-existing task with start date `"1"`. -/
def preTask : TaskContent :=
  ⟨("3b241101-e2bb-4255-8caf-4136c566a962").toList, ("1").toList, ("9").toList, ("Pre").toList, ("ap").toList, ("eo").toList, false⟩

/-- The task encoded in `rawOne`, with start date `"2"`. -/
def newTask : TaskContent :=
  ⟨("de305d54-75b4-431b-adb2-eb6b9e546014").toList, ("2").toList, ("3").toList, ("T").toList, ("p").toList, ("o").toList, false⟩

/-- A plan that already carries one task before the job runs. -/
def planPre : Plan := ⟨1, 7, gcPre, [preTask]⟩

/-- `planPre` after a job that parsed exactly `newTask`. -/
def upPlan : Plan := ⟨1, 7, gcPre, [preTask, newTask]⟩

/-- A raw completion text containing one valid task object (its `task_id`
is a canonical UUID, so pydantic validation succeeds). -/
def rawOne : String :=
  "Here is the plan: [\x7b\"task_id\":\"de305d54-75b4-431b-adb2-eb6b9e546014\",\"start_at\":\"2\",\"end_at\":\"3\",\"title\":\"T\",\"action_plan\":\"p\",\"expected_outcome\":\"o\"\x7d]"

/-- A raw text whose array holds, at index 0, an object whose `task_id` is
a valid UUID but which is missing `title` — its only schema violation. -/
def rawBadA : String :=
  "[\x7b\"task_id\":\"9f8b8c44-1b5e-4b0f-9e4a-2d6a0c8e7f11\",\"start_at\":\"1\",\"end_at\":\"2\",\"action_plan\":\"p\",\"expected_outcome\":\"o\"\x7d]"

/-- A raw text whose array holds the fully valid object of `rawOne` at
index 0 and the same offending object as `rawBadA` (valid UUID, missing
`title`) at index 1. -/
def rawBadB : String :=
  "[\x7b\"task_id\":\"de305d54-75b4-431b-adb2-eb6b9e546014\",\"start_at\":\"2\",\"end_at\":\"3\",\"title\":\"T\",\"action_plan\":\"p\",\"expected_outcome\":\"o\"\x7d,\x7b\"task_id\":\"9f8b8c44-1b5e-4b0f-9e4a-2d6a0c8e7f11\",\"start_at\":\"1\",\"end_at\":\"2\",\"action_plan\":\"p\",\"expected_outcome\":\"o\"\x7d]"

/-- The decoded object of `rawOne`. -/
def jsonGood : Json := Json.obj
  [(("task_id").toList, Json.str ("de305d54-75b4-431b-adb2-eb6b9e546014").toList),
   (("start_at").toList, Json.str ("2").toList),
   (("end_at").toList, Json.str ("3").toList),
   (("title").toList, Json.str ("T").toList),
   (("action_plan").toList, Json.str ("p").toList),
   (("expected_outcome").toList, Json.str ("o").toList)]

/-- A decoded object with a valid `task_id` UUID but missing the required
`title` field. -/
def jsonBad : Json := Json.obj
  [(("task_id").toList, Json.str ("9f8b8c44-1b5e-4b0f-9e4a-2d6a0c8e7f11").toList),
   (("start_at").toList, Json.str ("1").toList),
   (("end_at").toList, Json.str ("2").toList),
   (("action_plan").toList, Json.str ("p").toList),
   (("expected_outcome").toList, Json.str ("o").toList)]

/-- A registry with an active entry for goal 5 holding one subscriber queue. -/
def regBusy : Registry := ⟨[(5, [42])], []⟩

/-- A plan whose goal id collides with the active entry of `regBusy`. -/
def planG5 : Plan := ⟨1, 5, gcPre, []⟩

/-- A response with one reasoning block and one nonempty text block. -/
def blocksW : List ContentBlock :=
  [ContentBlock.thinking ("think").toList, ContentBlock.text ("hi").toList]

/-- A raw text in which the last `]` precedes the first `[`. -/
def rawRev : String := "] i ["

/-- A raw text containing neither `[` nor `]`. -/
def rawNoBr : String := "no json here"

/-! ## Helper lemmas -/

/-- A character that fails the predicate survives `dropWhile`. -/
theorem mem_dropWhile_of_mem (p : Char → Bool) (c : Char) (hc : p c = false) :
    ∀ l : List Char, c ∈ l → c ∈ l.dropWhile p := by
  intro l
  induction l with
  | nil => intro h; exact absurd h (List.not_mem_nil c)
  | cons x xs ih =>
    intro h
    cases hpx : p x with
    | true =>
      rw [List.dropWhile_cons_of_pos hpx]
      rcases List.mem_cons.mp h with he | hm
      · exact absurd (he ▸ hc) (by rw [hpx]; simp)
      · exact ih hm
    | false => rw [List.dropWhile_cons_of_neg (by simp [hpx])]; exact h

/-- Membership in the stripped text coincides with membership in the raw
text for non-whitespace characters. -/
theorem mem_pyStrip (c : Char) (hc : wsChar c = false) (l : List Char) :
    c ∈ pyStrip l ↔ c ∈ l := by
  unfold pyStrip
  constructor
  · intro h
    have h1 := (List.dropWhile_sublist (p := wsChar)
      (l := (l.dropWhile wsChar).reverse)).subset (List.mem_reverse.mp h)
    have h2 := List.mem_reverse.mp h1
    exact (List.dropWhile_sublist (p := wsChar) (l := l)).subset h2
  · intro h
    rw [List.mem_reverse]
    exact mem_dropWhile_of_mem wsChar c hc _
      (List.mem_reverse.mpr (mem_dropWhile_of_mem wsChar c hc _ h))

/-- `pyFind` misses exactly when the character is absent. -/
theorem pyFind_eq_none_iff (c : Char) (l : List Char) :
    pyFind c l = none ↔ c ∉ l := by
  induction l with
  | nil => simp [pyFind]
  | cons x xs ih =>
    by_cases hx : x = c
    · simp [pyFind, hx]
    · rw [List.mem_cons]
      simp only [pyFind, beq_iff_eq, if_neg hx, Option.map_eq_none', ih]
      constructor
      · intro hn h
        rcases h with h | h
        · exact hx h.symm
        · exact hn h
      · intro hn h
        exact hn (Or.inr h)

/-- `pyRFind` misses exactly when the character is absent. -/
theorem pyRFind_eq_none_iff (c : Char) (l : List Char) :
    pyRFind c l = none ↔ c ∉ l := by
  unfold pyRFind
  rw [Option.map_eq_none', pyFind_eq_none_iff, List.mem_reverse]

/-- A successful `pyFind` entails membership. -/
theorem mem_of_pyFind_some {c : Char} {l : List Char} {s : Nat}
    (h : pyFind c l = some s) : c ∈ l := by
  by_contra hn
  rw [(pyFind_eq_none_iff c l).mpr hn] at h
  exact Option.noConfusion h

/-- A successful `pyRFind` entails membership. -/
theorem mem_of_pyRFind_some {c : Char} {l : List Char} {e : Nat}
    (h : pyRFind c l = some e) : c ∈ l := by
  by_contra hn
  rw [(pyRFind_eq_none_iff c l).mpr hn] at h
  exact Option.noConfusion h

/-- Lexicographic string order is reflexive. -/
theorem strLe_refl : ∀ l : List Char, strLe l l = true
  | [] => rfl
  | a :: as => by simp [strLe, lt_irrefl, strLe_refl as]

/-- Lexicographic string order is total. -/
theorem strLe_total : ∀ a b : List Char, strLe a b = true ∨ strLe b a = true
  | [], _ => Or.inl rfl
  | _ :: _, [] => Or.inr rfl
  | x :: xs, y :: ys => by
    rcases lt_trichotomy x y with h | h | h
    · left; simp [strLe, h]
    · subst h
      rcases strLe_total xs ys with ih | ih
      · left; simp [strLe, lt_irrefl, ih]
      · right; simp [strLe, lt_irrefl, ih]
    · right; simp [strLe, h]

/-- From a true lexicographic comparison of two nonempty strings, the head
is strictly smaller or the heads agree and the tails compare. -/
theorem strLe_cons_elim {x y : Char} {xs ys : List Char}
    (h : strLe (x :: xs) (y :: ys) = true) :
    x < y ∨ (x = y ∧ strLe xs ys = true) := by
  by_cases hxy : x < y
  · exact Or.inl hxy
  · by_cases hyx : y < x
    · rw [strLe, if_neg hxy, if_pos hyx] at h
      exact absurd h (by simp)
    · rw [strLe, if_neg hxy, if_neg hyx] at h
      exact Or.inr ⟨le_antisymm (not_lt.mp hyx) (not_lt.mp hxy), h⟩

/-- Lexicographic string order is transitive. -/
theorem strLe_trans : ∀ a b c : List Char,
    strLe a b = true → strLe b c = true → strLe a c = true
  | [], _, _, _, _ => rfl
  | _ :: _, [], _, h1, _ => by simp [strLe] at h1
  | _ :: _, _ :: _, [], _, h2 => by simp [strLe] at h2
  | x :: xs, y :: ys, z :: zs, h1, h2 => by
    rcases strLe_cons_elim h1 with hd1 | ⟨he1, ht1⟩ <;>
      rcases strLe_cons_elim h2 with hd2 | ⟨he2, ht2⟩
    · rw [strLe, if_pos (lt_trans hd1 hd2)]
    · have hxz : x < z := by rw [← he2]; exact hd1
      rw [strLe, if_pos hxz]
    · have hxz : x < z := by rw [he1]; exact hd2
      rw [strLe, if_pos hxz]
    · have hxz : x = z := he1.trans he2
      rw [strLe, hxz, if_neg (lt_irrefl z), if_neg (lt_irrefl z)]
      exact strLe_trans xs ys zs ht1 ht2

instance : IsTotal TaskContent taskLe :=
  ⟨fun a b => strLe_total a.start_at b.start_at⟩

instance : IsTrans TaskContent taskLe :=
  ⟨fun a b c => strLe_trans a.start_at b.start_at c.start_at⟩

/-- Two tasks with equal start dates compare `taskLe` in both directions. -/
theorem taskLe_of_start_eq {a b : TaskContent} (h : a.start_at = b.start_at) :
    taskLe a b := by
  unfold taskLe
  rw [h]
  exact strLe_refl b.start_at

/-- Inserting a task into a list commutes with filtering on a start date:
the skipped elements all have strictly smaller start dates, so an inserted
task with the filtered date lands in front of every kept element. -/
theorem filter_orderedInsert (k : List Char) (a : TaskContent) :
    ∀ l : List TaskContent,
      (List.orderedInsert taskLe a l).filter (hasStart k) =
        if a.start_at = k then a :: l.filter (hasStart k)
        else l.filter (hasStart k) := by
  intro l
  induction l with
  | nil =>
    by_cases h : a.start_at = k <;>
      simp [List.orderedInsert, List.filter, hasStart, h]
  | cons b l ih =>
    rw [List.orderedInsert]
    by_cases hab : taskLe a b
    · rw [if_pos hab]
      by_cases h : a.start_at = k <;>
        by_cases hb : b.start_at = k <;>
          simp [List.filter_cons, hasStart, h, hb]
    · rw [if_neg hab]
      have hne : b.start_at ≠ k ∨ a.start_at ≠ k := by
        by_cases h : a.start_at = k
        · left
          intro hb
          exact hab (taskLe_of_start_eq (h.trans hb.symm))
        · right; exact h
      by_cases h : a.start_at = k
      · have hb : b.start_at ≠ k := by
          rcases hne with hb | ha
          · exact hb
          · exact absurd h ha
        rw [if_pos h]
        simp [List.filter_cons, hasStart, hb, ih, if_pos h]
      · rw [if_neg h]
        by_cases hb : b.start_at = k <;>
          simp [List.filter_cons, hasStart, hb, ih, if_neg h]

/-- Stability of the job's sort: for every start date, the tasks carrying
that date appear in the sorted output exactly in their input order. -/
theorem filter_insertionSort (k : List Char) :
    ∀ l : List TaskContent,
      (List.insertionSort taskLe l).filter (hasStart k) = l.filter (hasStart k) := by
  intro l
  induction l with
  | nil => rfl
  | cons a l ih =>
    rw [List.insertionSort, filter_orderedInsert, ih]
    by_cases h : a.start_at = k <;> simp [List.filter_cons, hasStart, h]

/-- `"\n".join` of a list of strings is empty exactly for no string or a
single empty string. -/
theorem joinNewline_eq_nil (l : List (List Char)) :
    joinNewline l = [] ↔ l = [] ∨ l = [[]] := by
  match l with
  | [] => simp [joinNewline]
  | [s] =>
    simp only [joinNewline]
    constructor
    · intro h; right; rw [h]
    · intro h
      rcases h with h | h
      · exact absurd h (by simp)
      · rw [List.cons.injEq] at h
        exact h.1
  | s :: t :: rest =>
    have he : joinNewline (s :: t :: rest) = s ++ '\n' :: joinNewline (t :: rest) := rfl
    rw [he]
    constructor
    · intro h
      rcases List.append_eq_nil.mp h with ⟨_, h2⟩
      exact absurd h2 (by simp)
    · intro h
      rcases h with h | h
      · exact absurd h (by simp)
      · have hl := congrArg List.length h
        simp at hl

/-- Updating an association list makes the key map to the new value. -/
theorem lookupEntry_setEntry {α : Type} (k : Nat) (v : α) :
    ∀ l : List (Nat × α), lookupEntry (setEntry l k v) k = some v := by
  intro l
  induction l with
  | nil => simp [setEntry, lookupEntry]
  | cons kv rest ih =>
    rw [setEntry]
    by_cases h : kv.1 = k
    · rw [if_pos h, lookupEntry, if_pos rfl]
    · rw [if_neg h, lookupEntry, if_neg h]
      exact ih

/-- Deleting a key from an association list removes it. -/
theorem lookupEntry_removeEntry {α : Type} (k : Nat) :
    ∀ l : List (Nat × α), lookupEntry (removeEntry l k) k = none := by
  intro l
  induction l with
  | nil => rfl
  | cons kv rest ih =>
    rw [removeEntry, List.filter_cons]
    by_cases h : kv.1 = k
    · simp only [h, bne_self_eq_false, Bool.false_eq_true, if_neg]
      exact ih
    · have : (kv.1 != k) = true := bne_iff_ne.mpr h
      rw [if_pos this, lookupEntry, if_neg h]
      exact ih

/-- When both brackets are found, the parse result is determined by the
decode-then-validate tail. -/
theorem parsePlanText_found {raw : List Char} {s e : Nat}
    (h1 : pyFind '[' (pyStrip raw) = some s)
    (h2 : pyRFind ']' (pyStrip raw) = some e) :
    parsePlanText raw =
      match jsonLoads (pySlice (pyStrip raw) s (e + 1)) with
      | .error m => .error (.invalidJson m)
      | .ok v =>
        match validateTasks v with
        | .error m => .error (.schemaViolation m)
        | .ok ts => .ok ts := by
  unfold parsePlanText
  rw [h1, h2]

/-! ## Claim theorems -/

/-- C1 (confirmed). One run of the background job
(`_process_plan_in_background`) broadcasts a prefix of status events
followed by exactly one terminal event (`completed` xor `error`), the
terminal event last. The job is a total function of the plan and the
completion-call outcome: every failure — completion failure, parse
failure, or any other exception raised inside the `try` block — surfaces
only as that single `error` event and never escapes the job. -/
theorem runJob_single_terminal_event (p : Plan) (llm : Except (List Char) (List Char)) :
    ∃ pre t, runJobEvents p llm = pre ++ [t] ∧ isTerminal t = true ∧
      (∀ ev ∈ pre, isStatus ev = true) ∧
      (runJobEvents p llm).countP isTerminal = 1 := by
  rcases h : planService p llm with e | up
  · refine ⟨[Event.status startingMessage], Event.error (errMessage e), ?_, rfl, ?_, ?_⟩
    · simp [runJobEvents, h]
    · intro ev hev
      rw [List.mem_singleton] at hev
      rw [hev]
      rfl
    · simp [runJobEvents, h, List.countP_cons, isTerminal]
  · refine ⟨[Event.status startingMessage,
        Event.status (generatedMessage up.tasks_content.length)],
      Event.completed up, ?_, rfl, ?_, ?_⟩
    · simp [runJobEvents, h]
    · intro ev hev
      rcases List.mem_cons.mp hev with hev | hev
      · rw [hev]; rfl
      · rw [List.mem_singleton] at hev
        rw [hev]
        rfl
    · simp [runJobEvents, h, List.countP_cons, isTerminal]

/-- C2, counterexample. After the grace period the retained result is still
present: attaching to a job whose cleanup has run yields the one-shot
replay of the terminal event, not a 404 — refuting the claim that
post-grace attachment fails with NotFound. -/
theorem attach_after_grace_cex :
    stream_plan_updates 7 (stateAfterGrace planPre (.error ("boom").toList)) =
      .oneShot (Event.error ("boom").toList) ∧
    stream_plan_updates 7 (stateAfterGrace planPre (.error ("boom").toList)) ≠
      AttachResult.notFound ∧
    lookupEntry (stateAfterGrace planPre (.error ("boom").toList)).taskResults 7 =
      some (StoredResult.errorDict ("boom").toList) := by
  refine ⟨rfl, ?_, rfl⟩
  decide

/-- C2 (amended). The grace-period cleanup (`finally` block) evicts only
the `sse_queues` entry; the `task_results` entry — the retained terminal
result — is never deleted, so an attach after the grace period succeeds
with the one-shot retained terminal event instead of failing with
NotFound. -/
theorem grace_evicts_queues_keeps_result (p : Plan)
    (llm : Except (List Char) (List Char)) :
    lookupEntry (stateAfterGrace p llm).sseQueues p.goal_id = none ∧
    lookupEntry (stateAfterGrace p llm).taskResults p.goal_id =
      some (runJobStored p llm) ∧
    stream_plan_updates p.goal_id (stateAfterGrace p llm) =
      .oneShot (terminalEvent p llm) := by
  refine ⟨?_, ?_, ?_⟩
  · exact lookupEntry_removeEntry p.goal_id _
  · simp [stateAfterGrace, stateAfterTerminal, stateAfterSubmit, generate_plan,
      emptyRegistry, setEntry, lookupEntry]
  · rcases h : planService p llm with e | up <;>
      simp [stream_plan_updates, stateAfterGrace, stateAfterTerminal,
        stateAfterSubmit, generate_plan, emptyRegistry, setEntry, removeEntry,
        lookupEntry, runJobStored, terminalEvent, h, List.filter_cons]

/-- C3, counterexample. Submitting a plan whose goal id already has an
active entry (with a live subscriber queue) succeeds and silently resets
the queue entry — refuting the claim that it fails with Conflict. -/
theorem submit_existing_id_replaces_cex :
    (generate_plan planG5 regBusy).1.success = true ∧
    lookupEntry (generate_plan planG5 regBusy).2.sseQueues 5 = some [] ∧
    lookupEntry regBusy.sseQueues 5 = some [42] :=
  ⟨rfl, rfl, rfl⟩

/-- C3 (amended). `generate_plan` performs no membership check at all:
for every plan and every prior registry state — in particular one where
the goal id already has an active or retained entry — it succeeds
(`success = true`) and resets `sse_queues[goal_id]` to a fresh empty list,
silently replacing any existing entry. -/
theorem submit_never_conflicts (p : Plan) (st : Registry) :
    (generate_plan p st).1.success = true ∧
    lookupEntry (generate_plan p st).2.sseQueues p.goal_id = some [] :=
  ⟨rfl, lookupEntry_setEntry p.goal_id [] st.sseQueues⟩

set_option maxRecDepth 16000 in
/-- C4, counterexample. For a plan that already carries one task and a raw
text that parses to exactly one new task, the emitted status message is
`Generated 2 tasks` — the count of the whole task sequence after appending —
and no `Generated 1 tasks` status (the newly-parsed count claimed by the
spec) is ever emitted. -/
theorem generated_status_new_count_cex :
    parsePlanText rawOne.toList = .ok [newTask] ∧
    (runJobEvents planPre (.ok rawOne.toList))[1]? =
      some (Event.status (("Generated 2 tasks").toList)) ∧
    Event.status (("Generated 1 tasks").toList) ∉
      runJobEvents planPre (.ok rawOne.toList) := by
  refine ⟨rfl, rfl, ?_⟩
  decide

/-- C4 (amended). On the success path the post-parsing status message is
`Generated N tasks` where `N = len(updated_plan.tasks_content)` — the total
length of the plan's task sequence after appending the parsed tasks (equal
to the newly-parsed count only when the plan starts with no tasks). -/
theorem generated_status_counts_total (p : Plan)
    (llm : Except (List Char) (List Char)) (up : Plan)
    (h : planService p llm = .ok up) :
    runJobEvents p llm =
      [Event.status startingMessage,
       Event.status (generatedMessage up.tasks_content.length),
       Event.completed up] := by
  simp [runJobEvents, h]

set_option maxRecDepth 8000 in
/-- Witness for C4's amended theorem at a concrete plan with one
pre-existing task and one parsed task. -/
theorem generated_status_counts_total_witness :
    planService planPre (.ok rawOne.toList) = .ok upPlan ∧
    runJobEvents planPre (.ok rawOne.toList) =
      [Event.status startingMessage,
       Event.status (generatedMessage 2),
       Event.completed upPlan] := by
  refine ⟨rfl, ?_⟩
  exact generated_status_counts_total planPre (.ok rawOne.toList) upPlan rfl

set_option maxRecDepth 16000 in
/-- C5, counterexample. The same offending element (an object missing
`title`) produces the identical schema-violation error whether it sits at
index 0 (`rawBadA`) or at index 1 (`rawBadB`) of the array: the error is a
function of the element alone (the source passes only `task_dict`, never the
loop index, to the validator), so it cannot cite the element's index. -/
theorem schema_error_lacks_index_cex :
    parsePlanText rawBadA.toList =
      .error (ParseErr.schemaViolation (("Field required: title").toList)) ∧
    parsePlanText rawBadB.toList =
      .error (ParseErr.schemaViolation (("Field required: title").toList)) :=
  ⟨rfl, rfl⟩

/-- C5 (amended). Validation stops at the first offending element and fails
with that element's own schema-violation detail; the detail names the
violated field but is independent of the element's position in the array
(and of everything after it). -/
theorem schema_error_first_offender (pre : List Json) (bad : Json)
    (rest : List Json) (ts : List TaskContent) (m : List Char)
    (hpre : validateTaskList pre = .ok ts)
    (hbad : validateTaskContent bad = .error m) :
    validateTaskList (pre ++ bad :: rest) = .error m := by
  induction pre generalizing ts with
  | nil =>
    rw [List.nil_append]
    simp only [validateTaskList, hbad]
  | cons j pre ih =>
    simp only [validateTaskList] at hpre
    rcases h1 : validateTaskContent j with m1 | t
    · rw [h1] at hpre
      exact Except.noConfusion hpre
    · rw [h1] at hpre
      rcases h2 : validateTaskList pre with m2 | ts2
      · rw [h2] at hpre
        exact Except.noConfusion hpre
      · rw [List.cons_append]
        simp only [validateTaskList, h1, ih ts2 h2]

/-- Witness for C5's amended theorem: a valid element followed by an
element missing `title`. -/
theorem schema_error_first_offender_witness :
    validateTaskList [jsonGood] = .ok [newTask] ∧
    validateTaskContent jsonBad = .error (("Field required: title").toList) ∧
    validateTaskList ([jsonGood] ++ jsonBad :: []) =
      .error (("Field required: title").toList) :=
  ⟨rfl, rfl, schema_error_first_offender [jsonGood] jsonBad [] [newTask] _ rfl rfl⟩

/-- C6 (confirmed). After a successful job over a plan with N pre-existing
tasks and M parsed tasks, the plan's task sequence has length N + M, is
non-decreasing by start date, and the sort is stable: for every start date,
the tasks carrying it appear exactly in their pre-sort
(pre-existing-then-parsed) order. -/
theorem tasks_appended_sorted_stable (p : Plan) (raw : List Char)
    (ts : List TaskContent) (up : Plan)
    (hp : parsePlanText raw = .ok ts)
    (hs : planService p (.ok raw) = .ok up) :
    up.tasks_content.length = p.tasks_content.length + ts.length ∧
    List.Sorted taskLe up.tasks_content ∧
    ∀ k, up.tasks_content.filter (hasStart k) =
      (p.tasks_content ++ ts).filter (hasStart k) := by
  have hup : up =
      { p with tasks_content := List.insertionSort taskLe (p.tasks_content ++ ts) } := by
    simp only [planService, hp] at hs
    exact (Except.ok.inj hs).symm
  subst hup
  refine ⟨?_, ?_, ?_⟩
  · simp [List.length_insertionSort]
  · exact List.sorted_insertionSort taskLe _
  · intro k
    exact filter_insertionSort k _

set_option maxRecDepth 16000 in
/-- Witness for C6 at a concrete plan with one pre-existing task and a raw
text parsing to one new task with a distinct start date. -/
theorem tasks_appended_sorted_stable_witness :
    parsePlanText rawOne.toList = .ok [newTask] ∧
    planService planPre (.ok rawOne.toList) = .ok upPlan ∧
    upPlan.tasks_content.length = planPre.tasks_content.length + 1 ∧
    upPlan.tasks_content.filter (hasStart (("1").toList)) =
      (planPre.tasks_content ++ [newTask]).filter (hasStart (("1").toList)) := by
  refine ⟨rfl, rfl, ?_, ?_⟩
  · exact (tasks_appended_sorted_stable planPre rawOne.toList [newTask] upPlan rfl rfl).1
  · exact (tasks_appended_sorted_stable planPre rawOne.toList [newTask] upPlan rfl rfl).2.2 _

/-- C7 (confirmed). A subscriber attaching while the job is terminal but
still within the grace period (terminal result stored, queue entry not yet
cleaned up) receives a one-shot stream of exactly the retained terminal
event — the `completed` event with the full updated plan, or the `error`
event with the stored message — which equals the last event the job
broadcast. -/
theorem late_subscriber_in_grace_one_shot (p : Plan)
    (llm : Except (List Char) (List Char)) :
    stream_plan_updates p.goal_id (stateAfterTerminal p llm) =
      .oneShot (terminalEvent p llm) ∧
    ∃ pre, runJobEvents p llm = pre ++ [terminalEvent p llm] := by
  constructor
  · rcases h : planService p llm with e | up <;>
      simp [stream_plan_updates, stateAfterTerminal, stateAfterSubmit,
        generate_plan, emptyRegistry, setEntry, lookupEntry, runJobStored,
        terminalEvent, h]
  · rcases h : planService p llm with e | up
    · exact ⟨[Event.status startingMessage], by simp [runJobEvents, terminalEvent, h]⟩
    · exact ⟨[Event.status startingMessage,
        Event.status (generatedMessage up.tasks_content.length)],
        by simp [runJobEvents, terminalEvent, h]⟩

/-- C8, counterexample. A response whose only content block is a single
empty visible-text block: a visible-text segment is present and the
claimed return value would be the empty concatenation, but the code's
`if not result` falsiness test raises the EmptyResponse error instead of
returning the empty string. -/
theorem empty_text_block_cex :
    generate_completion [ContentBlock.text []] =
      .error (("Failed to generate completion: Empty response from LLM").toList) ∧
    generate_completion [ContentBlock.text []] ≠ .ok [] ∧
    visibleTexts [ContentBlock.text []] = [[]] := by
  refine ⟨rfl, ?_, rfl⟩
  decide

/-- C8 (amended). `generate_completion` returns the visible-text segments
joined by a line break whenever that join is nonempty, and fails with the
EmptyResponse error exactly when the join is empty — which happens when no
visible-text segment is present, and also when the only visible-text
segment is the empty string. -/
theorem generate_completion_characterization (blocks : List ContentBlock) :
    (joinNewline (visibleTexts blocks) ≠ [] →
      generate_completion blocks = .ok (joinNewline (visibleTexts blocks))) ∧
    (joinNewline (visibleTexts blocks) = [] →
      generate_completion blocks =
        .error (("Failed to generate completion: Empty response from LLM").toList)) ∧
    (joinNewline (visibleTexts blocks) = [] ↔
      visibleTexts blocks = [] ∨ visibleTexts blocks = [[]]) := by
  refine ⟨?_, ?_, joinNewline_eq_nil _⟩
  · intro h
    simp [generate_completion, h]
  · intro h
    simp [generate_completion, h]

/-- Witness for C8's amended theorem: a reasoning block followed by a
nonempty text block yields just the text. -/
theorem generate_completion_characterization_witness :
    joinNewline (visibleTexts blocksW) = ("hi").toList ∧
    generate_completion blocksW = .ok (("hi").toList) := by
  refine ⟨rfl, ?_⟩
  exact (generate_completion_characterization blocksW).1 (by decide)

/-- C9 (confirmed). The parser fails with NoArrayFound exactly when `[` or
`]` is absent from the raw text: stripping removes no bracket, a missing
first `[` or last `]` takes the NoArrayFound branch, and once both are
located every other outcome is an invalid-JSON error, a schema violation,
or success. -/
theorem noArrayFound_iff_bracket_absent (raw : List Char) :
    parsePlanText raw = .error ParseErr.noArrayFound ↔
      ('[' ∉ raw ∨ ']' ∉ raw) := by
  rcases h1 : pyFind '[' (pyStrip raw) with _ | s
  · have ha : '[' ∉ raw := fun hr =>
      (pyFind_eq_none_iff _ _).mp h1 ((mem_pyStrip '[' (by decide) raw).mpr hr)
    constructor
    · intro _
      exact Or.inl ha
    · intro _
      unfold parsePlanText
      rcases h2 : pyRFind ']' (pyStrip raw) with _ | e <;> simp [h1, h2]
  · rcases h2 : pyRFind ']' (pyStrip raw) with _ | e
    · have hb : ']' ∉ raw := fun hr =>
        (pyRFind_eq_none_iff _ _).mp h2 ((mem_pyStrip ']' (by decide) raw).mpr hr)
      constructor
      · intro _
        exact Or.inr hb
      · intro _
        unfold parsePlanText
        simp [h1, h2]
    · have ha : '[' ∈ raw :=
        (mem_pyStrip '[' (by decide) raw).mp (mem_of_pyFind_some h1)
      have hb : ']' ∈ raw :=
        (mem_pyStrip ']' (by decide) raw).mp (mem_of_pyRFind_some h2)
      constructor
      · intro hEq
        exfalso
        rw [parsePlanText_found h1 h2] at hEq
        rcases h3 : jsonLoads (pySlice (pyStrip raw) s (e + 1)) with m | v
        · rw [h3] at hEq
          simp at hEq
        · rw [h3] at hEq
          rcases h4 : validateTasks v with m | ts <;> simp [h4] at hEq
      · intro hor
        rcases hor with h | h
        · exact absurd ha h
        · exact absurd hb h

/-- Witness for C9 at a concrete raw text containing neither bracket. -/
theorem noArrayFound_iff_bracket_absent_witness :
    ('[' ∉ rawNoBr.toList ∨ ']' ∉ rawNoBr.toList) ∧
    parsePlanText rawNoBr.toList = .error ParseErr.noArrayFound := by
  have h : '[' ∉ rawNoBr.toList ∨ ']' ∉ rawNoBr.toList := Or.inl (by decide)
  exact ⟨h, (noArrayFound_iff_bracket_absent rawNoBr.toList).mpr h⟩

/-- C10 (confirmed). When both brackets occur in the scanned (stripped)
text but the last `]` precedes the first `[`, the extracted slice is empty,
so the parse fails with the invalid-JSON error (`json.loads` of the empty
string), not with NoArrayFound — that branch is reachable only when a
bracket is entirely absent. -/
theorem reversed_brackets_invalid_json (raw : List Char) (s e : Nat)
    (h1 : pyFind '[' (pyStrip raw) = some s)
    (h2 : pyRFind ']' (pyStrip raw) = some e)
    (hlt : e < s) :
    parsePlanText raw = .error (ParseErr.invalidJson (("Expecting value").toList)) ∧
    parsePlanText raw ≠ .error ParseErr.noArrayFound := by
  have hsl : pySlice (pyStrip raw) s (e + 1) = [] := by
    unfold pySlice
    have h0 : e + 1 - s = 0 := by omega
    rw [h0]
    exact List.take_zero _
  have hj : jsonLoads (pySlice (pyStrip raw) s (e + 1)) =
      .error (("Expecting value").toList) := by
    rw [hsl]
    rfl
  have hmain : parsePlanText raw =
      .error (ParseErr.invalidJson (("Expecting value").toList)) := by
    rw [parsePlanText_found h1 h2, hj]
  refine ⟨hmain, ?_⟩
  rw [hmain]
  simp

/-- Witness for C10 at the concrete raw text `] i [`. -/
theorem reversed_brackets_invalid_json_witness :
    pyFind '[' (pyStrip rawRev.toList) = some 4 ∧
    pyRFind ']' (pyStrip rawRev.toList) = some 0 ∧
    parsePlanText rawRev.toList =
      .error (ParseErr.invalidJson (("Expecting value").toList)) := by
  refine ⟨rfl, rfl, ?_⟩
  exact (reversed_brackets_invalid_json rawRev.toList 4 0 rfl rfl (by decide)).1
